import Mathlib

/-!
Shallow embedding of the redcomponent database-offloading manager
(`src/include/redcomponent/offloading/IOffloadManager.hpp` and
`src/include/redcomponent/offloading/MockOffloadManager.hpp`) together with
theorems settling the behavioural claims about it.

Modelling conventions:
* C++ `size_t` fields are modeled as `Nat`; every arithmetic step that can
  wrap in C++ applies `% 2 ^ 64` explicitly (`U64` below).
* C++ `double` fields are modeled as `ℚ` (they only carry exact small
  values in the code paths treated here).
* `std::chrono` timestamp/duration fields (wall-clock time) and the derived
  transfer-rate fields are omitted: no claim depends on them and real time
  is outside the embedding.
* The test-hook `std::function` members (`start_hook_`, `cancel_hook_`,
  `nodes_hook_`, `select_node_hook_`) are modeled as absent (the default
  after construction): the claims describe the manager's own behaviour, and
  every hook-taken branch short-circuits it entirely.
* Each mutating operation returns, besides its boolean result and the new
  state, the list of `(previous, next)` pairs with which the status-change
  callback would be invoked, in invocation order.  `set_status` is the only
  place the C++ code invokes that callback; `reset` assigns `status_`
  directly without going through `set_status`, hence its event list is
  empty by translation from the source.
-/

namespace Offloading

/-- `OffloadStatus` from IOffloadManager.hpp. -/
inductive OffloadStatus
  | Idle
  | Preparing
  | Transferring
  | Completing
  | Completed
  | Failed
  | Cancelled
  | Paused
deriving DecidableEq

/-- `NodeHealth` from IOffloadManager.hpp. -/
inductive NodeHealth
  | Healthy
  | Degraded
  | Unhealthy
  | Unknown
deriving DecidableEq

/-- `TargetNode` from IOffloadManager.hpp (timestamps omitted, see header
comment).  Field defaults mirror the C++ in-class initializers, so `{}` is
the default-constructed node. -/
structure TargetNode where
  node_id : String := ""
  host : String := ""
  port : Nat := 5432
  cluster_id : String := ""
  region : String := ""
  total_storage_bytes : Nat := 0
  available_storage_bytes : Nat := 0
  used_storage_bytes : Nat := 0
  cpu_usage_percent : ℚ := 0
  memory_usage_percent : ℚ := 0
  network_utilization_percent : ℚ := 0
  health : NodeHealth := NodeHealth.Unknown
  accepting_offloads : Bool := true
  active_offload_count : Nat := 0
  max_concurrent_offloads : Nat := 10
deriving DecidableEq

/-- `TargetNode::can_accept_offload` (IOffloadManager.hpp, lines 100-104). -/
def TargetNode.can_accept_offload (n : TargetNode) : Bool :=
  n.accepting_offloads &&
    decide (n.health = NodeHealth.Healthy) &&
    decide (n.active_offload_count < n.max_concurrent_offloads)

/-- `OffloadConfig` from IOffloadManager.hpp with its default member values
(timeout durations kept as plain second/millisecond counts). -/
structure OffloadConfig where
  memory_threshold_percent : ℚ := 80
  storage_threshold_percent : ℚ := 85
  min_byte_difference : Nat := 100 * 1024 * 1024
  max_byte_per_transfer : Nat := 1024 * 1024 * 1024 * 10
  segment_size : Nat := 1 * 1024 * 1024
  max_concurrent_transfers : Nat := 4
  transfer_buffer_size : Nat := 64 * 1024
  connect_timeout_seconds : Nat := 30
  transfer_timeout_seconds : Nat := 300
  health_check_interval_seconds : Nat := 10
  max_retries : Nat := 3
  retry_delay_ms : Nat := 1000
  retry_backoff_multiplier : ℚ := 2
  auto_offload : Bool := true
  compress_transfers : Bool := true
  verify_integrity : Bool := true
  prefer_local_region : Bool := true
  min_available_storage_bytes : Nat := 1024 * 1024 * 1024
  max_target_cpu_usage : ℚ := 80
  max_target_memory_usage : ℚ := 85
deriving DecidableEq

/-- `OffloadProgress` from IOffloadManager.hpp (timing and rate fields
omitted, see header comment).  `{}` is the default-constructed record. -/
structure OffloadProgress where
  total_bytes : Nat := 0
  transferred_bytes : Nat := 0
  pending_bytes : Nat := 0
  segments_total : Nat := 0
  segments_completed : Nat := 0
  segments_failed : Nat := 0
  segments_pending : Nat := 0
  error_message : Option String := none
  current_segment_id : Option String := none
deriving DecidableEq

/-- `OffloadProgress::progress_percent` (IOffloadManager.hpp, lines 175-178),
the `double` result represented exactly in `ℚ`. -/
def OffloadProgress.progress_percent (p : OffloadProgress) : ℚ :=
  if p.total_bytes = 0 then 0
  else 100 * (p.transferred_bytes : ℚ) / (p.total_bytes : ℚ)

/-- `OffloadProgress::completed_successfully` (IOffloadManager.hpp,
lines 195-199). -/
def OffloadProgress.completed_successfully (p : OffloadProgress) : Bool :=
  decide (p.segments_completed = p.segments_total) &&
    decide (0 < p.segments_total) && p.error_message.isNone

/-- `OffloadResult` from IOffloadManager.hpp (completion timestamp omitted). -/
structure OffloadResult where
  success : Bool := false
  error_message : Option String := none
  final_progress : OffloadProgress := {}
  target_node : TargetNode := {}
deriving DecidableEq

/-- `MockOffloadManager`'s member state (MockOffloadManager.hpp, lines
27-49); callbacks and test hooks carry no data relevant here (hooks are
modeled as never installed). -/
structure MockOffloadManager where
  config : OffloadConfig := {}
  status : OffloadStatus := OffloadStatus.Idle
  progress : OffloadProgress := {}
  current_target : Option TargetNode := none
  last_result : Option OffloadResult := none
  available_nodes : List TargetNode := []
  offload_data_ids : List String := []
deriving DecidableEq

/-- `MockOffloadManager::create_mock_node` (MockOffloadManager.hpp,
lines 323-346). -/
def create_mock_node (id host : String) (available_storage : Nat)
    (cpu : ℚ := 30) (memory : ℚ := 40) : TargetNode :=
  { node_id := id
    host := host
    port := 5432
    cluster_id := "test-cluster"
    region := "us-east-1"
    total_storage_bytes := available_storage * 2
    available_storage_bytes := available_storage
    used_storage_bytes := available_storage
    cpu_usage_percent := cpu
    memory_usage_percent := memory
    health := NodeHealth.Healthy
    accepting_offloads := true
    active_offload_count := 0
    max_concurrent_offloads := 10 }

/-- The three default mock nodes installed by the constructor and by
`reset` (MockOffloadManager.hpp, lines 96-100 and 516-520). -/
def defaultMockNodes : List TargetNode :=
  [ create_mock_node "node1" "192.168.1.10" (100 * 1024 * 1024 * 1024),
    create_mock_node "node2" "192.168.1.11" (200 * 1024 * 1024 * 1024),
    create_mock_node "node3" "192.168.1.12" (50 * 1024 * 1024 * 1024) ]

/-- `MockOffloadManager::MockOffloadManager()` (constructor,
MockOffloadManager.hpp, lines 94-101). -/
def mkMockOffloadManager : MockOffloadManager :=
  { available_nodes := defaultMockNodes }

/-- A default-constructed `TargetNode` (all C++ in-class initializers),
what `OffloadResult::target_node` holds when no target was selected. -/
def defaultTargetNode : TargetNode := {}

/-- One invocation of the status-change callback: the `(previous, next)`
pair it is called with. -/
abbrev StatusEvent := OffloadStatus × OffloadStatus

/-- `MockOffloadManager::set_status` (MockOffloadManager.hpp, lines 51-57):
the callback fires exactly when the status actually changes. -/
def set_status (m : MockOffloadManager) (new_status : OffloadStatus) :
    MockOffloadManager × List StatusEvent :=
  ({ m with status := new_status },
    if m.status = new_status then [] else [(m.status, new_status)])

/-- `MockOffloadManager::notify_complete` (MockOffloadManager.hpp, lines
76-91): records the last result from the current progress and target. -/
def notify_complete (m : MockOffloadManager) (success : Bool) :
    MockOffloadManager :=
  { m with last_result := some (
      { success := success
        error_message := if success then none else m.progress.error_message
        final_progress := m.progress
        target_node := m.current_target.getD defaultTargetNode : OffloadResult }) }

/-- `MockOffloadManager::set_config` (MockOffloadManager.hpp, lines 107-110). -/
def set_config (m : MockOffloadManager) (c : OffloadConfig) :
    MockOffloadManager :=
  { m with config := c }

/-- `MockOffloadManager::select_target_node` (MockOffloadManager.hpp, lines
135-154), hook absent: first node with the given id wins or fails the whole
call. -/
def select_target_node (m : MockOffloadManager) (node_id : String) :
    Bool × MockOffloadManager :=
  match m.available_nodes.find? (fun n => n.node_id == node_id) with
  | some n =>
      if n.can_accept_offload then (true, { m with current_target := some n })
      else (false, m)
  | none => (false, m)

/-- The loop body of `MockOffloadManager::auto_select_target_node`
(MockOffloadManager.hpp, lines 160-167): keep the current best unless the
node can accept offloads and strictly exceeds it in available storage. -/
def better_node (best : Option TargetNode) (n : TargetNode) :
    Option TargetNode :=
  if n.can_accept_offload then
    match best with
    | none => some n
    | some b =>
        if b.available_storage_bytes < n.available_storage_bytes then some n
        else some b
  else best

/-- The best-node computation of `auto_select_target_node` as a fold over
the node list. -/
def auto_best (m : MockOffloadManager) : Option TargetNode :=
  m.available_nodes.foldl better_node none

/-- `MockOffloadManager::auto_select_target_node` (MockOffloadManager.hpp,
lines 156-176). -/
def auto_select_target_node (m : MockOffloadManager) :
    Bool × MockOffloadManager :=
  match auto_best m with
  | some b => (true, { m with current_target := some b })
  | none => (false, m)

/-- `MockOffloadManager::clear_target_selection` (MockOffloadManager.hpp,
lines 183-186). -/
def clear_target_selection (m : MockOffloadManager) : MockOffloadManager :=
  { m with current_target := none }

/-- `MockOffloadManager::start_offload` (MockOffloadManager.hpp, lines
188-226), hook absent.  The mock hard-codes a 100 MiB payload in 100
segments. -/
def start_offload (m : MockOffloadManager) (data_ids : List String) :
    Bool × MockOffloadManager × List StatusEvent :=
  if m.current_target = none then (false, m, [])
  else if m.status ≠ OffloadStatus.Idle ∧ m.status ≠ OffloadStatus.Paused then
    (false, m, [])
  else
    let prog : OffloadProgress :=
      { total_bytes := 100 * 1024 * 1024
        pending_bytes := 100 * 1024 * 1024
        segments_total := 100
        segments_pending := 100 }
    let m1 := { m with offload_data_ids := data_ids, progress := prog }
    let s1 := set_status m1 OffloadStatus.Preparing
    let s2 := set_status s1.1 OffloadStatus.Transferring
    (true, s2.1, s1.2 ++ s2.2)

/-- `MockOffloadManager::cancel_offload` (MockOffloadManager.hpp, lines
228-246), hook absent. -/
def cancel_offload (m : MockOffloadManager) :
    Bool × MockOffloadManager × List StatusEvent :=
  if m.status = OffloadStatus.Idle ∨ m.status = OffloadStatus.Completed ∨
      m.status = OffloadStatus.Failed ∨ m.status = OffloadStatus.Cancelled then
    (false, m, [])
  else
    let s := set_status m OffloadStatus.Cancelled
    (true, notify_complete s.1 false, s.2)

/-- `MockOffloadManager::pause_offload` (MockOffloadManager.hpp, lines
248-258). -/
def pause_offload (m : MockOffloadManager) :
    Bool × MockOffloadManager × List StatusEvent :=
  if m.status = OffloadStatus.Transferring then
    let s := set_status m OffloadStatus.Paused
    (true, s.1, s.2)
  else (false, m, [])

/-- `MockOffloadManager::resume_offload` (MockOffloadManager.hpp, lines
260-270). -/
def resume_offload (m : MockOffloadManager) :
    Bool × MockOffloadManager × List StatusEvent :=
  if m.status = OffloadStatus.Paused then
    let s := set_status m OffloadStatus.Transferring
    (true, s.1, s.2)
  else (false, m, [])

/-- `MockOffloadManager::is_active` (MockOffloadManager.hpp, lines 282-288). -/
def is_active (m : MockOffloadManager) : Bool :=
  decide (m.status = OffloadStatus.Preparing) ||
    decide (m.status = OffloadStatus.Transferring) ||
    decide (m.status = OffloadStatus.Completing) ||
    decide (m.status = OffloadStatus.Paused)

/-- Modulus of C++ 64-bit `size_t` arithmetic. -/
def U64 : Nat := 2 ^ 64

/-- `MockOffloadManager::simulate_progress` (MockOffloadManager.hpp, lines
392-413): unsigned 64-bit `+=`, `++` and subtraction, rate fields omitted. -/
def simulate_progress (m : MockOffloadManager) (bytes : Nat) :
    MockOffloadManager :=
  let t := (m.progress.transferred_bytes + bytes) % U64
  let c := (m.progress.segments_completed + 1) % U64
  { m with progress :=
      { m.progress with
        transferred_bytes := t
        pending_bytes := (m.progress.total_bytes + U64 - t) % U64
        segments_completed := c
        segments_pending := (m.progress.segments_total + U64 - c) % U64 } }

/-- `MockOffloadManager::simulate_complete` (MockOffloadManager.hpp, lines
419-434). -/
def simulate_complete (m : MockOffloadManager) (success : Bool) :
    MockOffloadManager × List StatusEvent :=
  if success then
    let m0 := { m with progress :=
      { m.progress with
        transferred_bytes := m.progress.total_bytes
        pending_bytes := 0
        segments_completed := m.progress.segments_total
        segments_pending := 0 } }
    let s1 := set_status m0 OffloadStatus.Completing
    let s2 := set_status s1.1 OffloadStatus.Completed
    (notify_complete s2.1 true, s1.2 ++ s2.2)
  else
    let s := set_status m OffloadStatus.Failed
    (notify_complete s.1 false, s.2)

/-- `MockOffloadManager::simulate_error` (MockOffloadManager.hpp, lines
440-447). -/
def simulate_error (m : MockOffloadManager) (error : String) :
    MockOffloadManager × List StatusEvent :=
  let m0 := { m with progress :=
    { m.progress with error_message := some error } }
  let s := set_status m0 OffloadStatus.Failed
  (notify_complete s.1 false, s.2)

/-- `MockOffloadManager::force_status` (MockOffloadManager.hpp, lines
383-386). -/
def force_status (m : MockOffloadManager) (s : OffloadStatus) :
    MockOffloadManager × List StatusEvent :=
  set_status m s

/-- `MockOffloadManager::reset` (MockOffloadManager.hpp, lines 500-521).
The C++ body assigns `status_ = OffloadStatus::Idle` directly, without
going through `set_status`, so no status-change callback invocation
occurs: the event list is empty. -/
def reset (m : MockOffloadManager) :
    MockOffloadManager × List StatusEvent :=
  ({ m with
      status := OffloadStatus.Idle
      progress := {}
      current_target := none
      last_result := none
      offload_data_ids := []
      available_nodes := defaultMockNodes }, [])

/-- Modelled from the spec: the auto-select admission filter of §4.1 —
`can_accept_offload` and `available_storage_bytes ≥
min_available_storage_bytes` and `cpu_usage_percent ≤ max_target_cpu_usage`
and `memory_usage_percent ≤ max_target_memory_usage`.  This definition
follows the spec's words (for comparison with the code's
`auto_select_target_node`), not the code, which implements no such filter. -/
def spec_auto_admissible (cfg : OffloadConfig) (n : TargetNode) : Bool :=
  n.can_accept_offload &&
    decide (cfg.min_available_storage_bytes ≤ n.available_storage_bytes) &&
    decide (n.cpu_usage_percent ≤ cfg.max_target_cpu_usage) &&
    decide (n.memory_usage_percent ≤ cfg.max_target_memory_usage)

/-- C1: `start_offload` succeeds exactly when a target node is currently
selected and the status is Idle or Paused; when it fails the whole state —
in particular the status, so Idle stays Idle and Transferring stays
Transferring — is unchanged; when it succeeds the status moves through
Preparing to Transferring, firing exactly that pair of transitions. -/
theorem C1_start_offload_guard (m : MockOffloadManager) (ids : List String) :
    (start_offload m ids).1 =
      (m.current_target.isSome &&
        (decide (m.status = OffloadStatus.Idle) ||
          decide (m.status = OffloadStatus.Paused))) ∧
    (start_offload m ids).2.1.status =
      (if m.current_target.isSome ∧
          (m.status = OffloadStatus.Idle ∨ m.status = OffloadStatus.Paused)
        then OffloadStatus.Transferring else m.status) ∧
    (start_offload m ids).2.2 =
      (if m.current_target.isSome ∧
          (m.status = OffloadStatus.Idle ∨ m.status = OffloadStatus.Paused)
        then [(m.status, OffloadStatus.Preparing),
              (OffloadStatus.Preparing, OffloadStatus.Transferring)]
        else []) ∧
    ((start_offload m ids).1 = false → (start_offload m ids).2.1 = m) := by
  cases ht : m.current_target <;> cases hs : m.status <;>
    simp [start_offload, set_status, ht, hs]

/-- Witness for C1 at a concrete input: the freshly constructed manager has
no target, so `start_offload` fails and leaves the manager unchanged. -/
theorem C1_start_offload_guard_witness :
    (start_offload mkMockOffloadManager []).1 = false ∧
    (start_offload mkMockOffloadManager []).2.1 = mkMockOffloadManager := by
  have h := C1_start_offload_guard mkMockOffloadManager []
  exact ⟨by rw [h.1]; rfl, h.2.2.2 (by rw [h.1]; rfl)⟩

/-- C5: `cancel_offload` succeeds exactly when the operation is active
(`is_active`, i.e. status Preparing, Transferring, Completing or Paused);
on success the status becomes Cancelled and a last result is recorded with
`success = false` whose final progress is the progress at the moment of
cancellation (retaining the byte counts transferred so far); otherwise it
fails and both the status and the last result are unchanged. -/
theorem C5_cancel_offload_guard (m : MockOffloadManager) :
    (cancel_offload m).1 = is_active m ∧
    (cancel_offload m).2.1.status =
      (if is_active m = true then OffloadStatus.Cancelled else m.status) ∧
    (cancel_offload m).2.1.progress = m.progress ∧
    (cancel_offload m).2.1.last_result =
      (if is_active m = true then
        some { success := false
               error_message := m.progress.error_message
               final_progress := m.progress
               target_node := m.current_target.getD defaultTargetNode }
        else m.last_result) := by
  cases hs : m.status <;>
    simp [cancel_offload, is_active, set_status, notify_complete, hs]

/-- C6: `pause_offload` succeeds exactly from Transferring and
`resume_offload` exactly from Paused; in every other state each returns
false and leaves the manager (in particular the status) unchanged. -/
theorem C6_pause_resume_guard (m : MockOffloadManager) :
    ((pause_offload m).1 = true ↔ m.status = OffloadStatus.Transferring) ∧
    (pause_offload m).2.1.status =
      (if m.status = OffloadStatus.Transferring then OffloadStatus.Paused
        else m.status) ∧
    ((resume_offload m).1 = true ↔ m.status = OffloadStatus.Paused) ∧
    (resume_offload m).2.1.status =
      (if m.status = OffloadStatus.Paused then OffloadStatus.Transferring
        else m.status) ∧
    ((pause_offload m).1 = false → (pause_offload m).2.1 = m) ∧
    ((resume_offload m).1 = false → (resume_offload m).2.1 = m) := by
  cases hs : m.status <;>
    simp [pause_offload, resume_offload, set_status, hs]

/-- Witness for C6 at a concrete input: on a freshly constructed (Idle)
manager both `pause_offload` and `resume_offload` fail and change nothing. -/
theorem C6_pause_resume_guard_witness :
    (pause_offload mkMockOffloadManager).2.1 = mkMockOffloadManager ∧
    (resume_offload mkMockOffloadManager).2.1 = mkMockOffloadManager := by
  have h := C6_pause_resume_guard mkMockOffloadManager
  exact ⟨h.2.2.2.2.1 (by rfl), h.2.2.2.2.2 (by rfl)⟩

/-- When node ids are unique, `find?` by id locates exactly the member node
carrying that id. -/
lemma find_node_eq_of_nodup (l : List TargetNode) (id : String) (n : TargetNode)
    (hd : (l.map TargetNode.node_id).Nodup) (hn : n ∈ l)
    (hid : n.node_id = id) :
    l.find? (fun x => x.node_id == id) = some n := by
  induction l with
  | nil => simp at hn
  | cons h t ih =>
      simp only [List.map_cons, List.nodup_cons] at hd
      rcases List.mem_cons.mp hn with rfl | hnt
      · have : (n.node_id == id) = true := by simp [hid]
        simp [List.find?_cons, this]
      · have hne : (h.node_id == id) = false := by
          apply beq_eq_false_iff_ne.mpr
          intro he
          exact hd.1 (he ▸ hid ▸ List.mem_map_of_mem TargetNode.node_id hnt)
        simp [List.find?_cons, hne]
        exact ih hd.2 hnt

/-- Equation lemma: `select_target_node` when no node carries the id. -/
lemma select_target_node_of_find_none (m : MockOffloadManager)
    (node_id : String)
    (h : m.available_nodes.find? (fun x => x.node_id == node_id) = none) :
    select_target_node m node_id = (false, m) := by
  unfold select_target_node
  rw [h]

/-- Equation lemma: `select_target_node` when the first node carrying the
id is found. -/
lemma select_target_node_of_find_some (m : MockOffloadManager)
    (node_id : String) (n : TargetNode)
    (h : m.available_nodes.find? (fun x => x.node_id == node_id) = some n) :
    select_target_node m node_id =
      (if n.can_accept_offload then (true, { m with current_target := some n })
        else (false, m)) := by
  unfold select_target_node
  rw [h]

/-- C4: when node ids are unique (the data model's stated invariant),
`select_target_node` succeeds exactly when a node with the requested id
exists and passes `can_accept_offload` (accepting, Healthy, below its
concurrency cap); every failure leaves the whole manager — in particular
any prior target selection — unchanged. -/
theorem C4_select_target_node_guard (m : MockOffloadManager)
    (node_id : String)
    (hd : (m.available_nodes.map TargetNode.node_id).Nodup) :
    ((select_target_node m node_id).1 = true ↔
      ∃ n ∈ m.available_nodes,
        n.node_id = node_id ∧ n.can_accept_offload = true) ∧
    ((select_target_node m node_id).1 = false →
      (select_target_node m node_id).2 = m) := by
  constructor
  · constructor
    · intro hT
      cases hf : m.available_nodes.find? (fun x => x.node_id == node_id) with
      | none => rw [select_target_node_of_find_none m node_id hf] at hT
                simp at hT
      | some n =>
          rw [select_target_node_of_find_some m node_id n hf] at hT
          have hmem := List.mem_of_find?_eq_some hf
          have hpred := (List.find?_eq_some.mp hf).1
          have hid : n.node_id = node_id := eq_of_beq hpred
          by_cases hacc : n.can_accept_offload = true
          · exact ⟨n, hmem, hid, hacc⟩
          · rw [if_neg hacc] at hT
            simp at hT
    · rintro ⟨n, hmem, hid, hacc⟩
      rw [select_target_node_of_find_some m node_id n
        (find_node_eq_of_nodup m.available_nodes node_id n hd hmem hid),
        if_pos hacc]
  · intro hF
    cases hf : m.available_nodes.find? (fun x => x.node_id == node_id) with
    | none => rw [select_target_node_of_find_none m node_id hf]
    | some n =>
        rw [select_target_node_of_find_some m node_id n hf] at hF ⊢
        by_cases hacc : n.can_accept_offload = true
        · rw [if_pos hacc] at hF
          simp at hF
        · rw [if_neg hacc]

/-- Witness for C4 at a concrete input: on the freshly constructed manager
(whose three default nodes have distinct ids) selecting a nonexistent node
fails and leaves the manager unchanged. -/
theorem C4_select_target_node_guard_witness :
    (select_target_node mkMockOffloadManager "nonexistent").1 = false ∧
    (select_target_node mkMockOffloadManager "nonexistent").2 =
      mkMockOffloadManager := by
  have h := C4_select_target_node_guard mkMockOffloadManager "nonexistent"
    (by decide)
  exact ⟨by rfl, h.2 (by rfl)⟩

/-- Equation lemma: a non-accepting node leaves the running best alone. -/
lemma better_node_not_accept (acc : Option TargetNode) (n : TargetNode)
    (hc : ¬n.can_accept_offload = true) :
    better_node acc n = acc := by
  unfold better_node
  rw [if_neg hc]

/-- Equation lemma: an accepting node replaces an empty running best. -/
lemma better_node_none_accept (n : TargetNode)
    (hc : n.can_accept_offload = true) :
    better_node none n = some n := by
  unfold better_node
  rw [if_pos hc]

/-- Equation lemma: an accepting node with strictly more storage replaces
the running best. -/
lemma better_node_some_lt (b n : TargetNode)
    (hc : n.can_accept_offload = true)
    (hlt : b.available_storage_bytes < n.available_storage_bytes) :
    better_node (some b) n = some n := by
  unfold better_node
  rw [if_pos hc]
  exact if_pos hlt

/-- Equation lemma: an accepting node without strictly more storage leaves
the running best alone. -/
lemma better_node_some_ge (b n : TargetNode)
    (hc : n.can_accept_offload = true)
    (hlt : ¬b.available_storage_bytes < n.available_storage_bytes) :
    better_node (some b) n = some b := by
  unfold better_node
  rw [if_pos hc]
  exact if_neg hlt

/-- One step of the auto-select loop yields `none` exactly if it started
from `none` and the node cannot accept offloads. -/
lemma better_node_eq_none (acc : Option TargetNode) (n : TargetNode) :
    better_node acc n = none ↔
      acc = none ∧ n.can_accept_offload = false := by
  by_cases hc : n.can_accept_offload = true
  · cases acc with
    | none => simp [better_node_none_accept n hc, hc]
    | some b =>
        by_cases hlt : b.available_storage_bytes < n.available_storage_bytes
        · simp [better_node_some_lt b n hc hlt, hc]
        · simp [better_node_some_ge b n hc hlt, hc]
  · simp [better_node_not_accept acc n hc, Bool.not_eq_true] at hc ⊢
    simp [hc]

/-- One step of the auto-select loop yields either the new node (if it can
accept offloads) or the previous best. -/
lemma better_node_some_src (acc : Option TargetNode) (n c : TargetNode)
    (h : better_node acc n = some c) :
    (c = n ∧ n.can_accept_offload = true) ∨ acc = some c := by
  by_cases hc : n.can_accept_offload = true
  · cases acc with
    | none =>
        rw [better_node_none_accept n hc] at h
        exact Or.inl ⟨(Option.some_inj.mp h).symm, hc⟩
    | some b =>
        by_cases hlt : b.available_storage_bytes < n.available_storage_bytes
        · rw [better_node_some_lt b n hc hlt] at h
          exact Or.inl ⟨(Option.some_inj.mp h).symm, hc⟩
        · rw [better_node_some_ge b n hc hlt] at h
          exact Or.inr h
  · rw [better_node_not_accept acc n hc] at h
    exact Or.inr h

/-- An accepting node never beats the step result in available storage. -/
lemma better_node_ge_self (acc : Option TargetNode) (n c : TargetNode)
    (hacc : n.can_accept_offload = true) (h : better_node acc n = some c) :
    n.available_storage_bytes ≤ c.available_storage_bytes := by
  cases acc with
  | none =>
      rw [better_node_none_accept n hacc] at h
      rw [Option.some_inj.mp h]
  | some b =>
      by_cases hlt : b.available_storage_bytes < n.available_storage_bytes
      · rw [better_node_some_lt b n hacc hlt] at h
        rw [Option.some_inj.mp h]
      · rw [better_node_some_ge b n hacc hlt] at h
        rw [← Option.some_inj.mp h]
        exact Nat.le_of_not_lt hlt

/-- The previous best never beats the step result in available storage. -/
lemma better_node_ge_acc (a n c : TargetNode)
    (h : better_node (some a) n = some c) :
    a.available_storage_bytes ≤ c.available_storage_bytes := by
  by_cases hc : n.can_accept_offload = true
  · by_cases hlt : a.available_storage_bytes < n.available_storage_bytes
    · rw [better_node_some_lt a n hc hlt] at h
      rw [← Option.some_inj.mp h]
      exact Nat.le_of_lt hlt
    · rw [better_node_some_ge a n hc hlt] at h
      rw [Option.some_inj.mp h]
  · rw [better_node_not_accept (some a) n hc] at h
    rw [Option.some_inj.mp h]

/-- A step starting from a previous best always yields some node. -/
lemma better_node_some_of_some (a : TargetNode) (n : TargetNode) :
    ∃ c, better_node (some a) n = some c := by
  by_cases hc : n.can_accept_offload = true
  · by_cases hlt : a.available_storage_bytes < n.available_storage_bytes
    · exact ⟨n, better_node_some_lt a n hc hlt⟩
    · exact ⟨a, better_node_some_ge a n hc hlt⟩
  · exact ⟨a, better_node_not_accept (some a) n hc⟩

/-- The auto-select fold yields `none` exactly when it started from `none`
and no node in the list can accept offloads. -/
lemma foldl_better_eq_none (l : List TargetNode) (acc : Option TargetNode) :
    l.foldl better_node acc = none ↔
      acc = none ∧ ∀ n ∈ l, n.can_accept_offload = false := by
  induction l generalizing acc with
  | nil => simp
  | cons h t ih =>
      rw [List.foldl_cons, ih, better_node_eq_none]
      constructor
      · rintro ⟨⟨h1, h2⟩, h3⟩
        refine ⟨h1, fun n hn => ?_⟩
        rcases List.mem_cons.mp hn with rfl | hnt
        · exact h2
        · exact h3 n hnt
      · rintro ⟨h1, h2⟩
        exact ⟨⟨h1, h2 h (List.mem_cons_self h t)⟩,
          fun n hn => h2 n (List.mem_cons_of_mem h hn)⟩

/-- The auto-select fold returns a node that is either from the list (and
accepting) or the initial accumulator, and whose available storage is
maximal among the accepting nodes of the list and the accumulator. -/
lemma foldl_better_spec (l : List TargetNode) :
    ∀ (acc : Option TargetNode) (b : TargetNode),
      l.foldl better_node acc = some b →
      ((b ∈ l ∧ b.can_accept_offload = true) ∨ acc = some b) ∧
      (∀ x ∈ l, x.can_accept_offload = true →
        x.available_storage_bytes ≤ b.available_storage_bytes) ∧
      (∀ a, acc = some a →
        a.available_storage_bytes ≤ b.available_storage_bytes) := by
  induction l with
  | nil =>
      intro acc b hb
      simp only [List.foldl_nil] at hb
      refine ⟨Or.inr hb, by simp, fun a ha => ?_⟩
      rw [ha] at hb
      exact (Option.some_inj.mp hb) ▸ Nat.le_refl _
  | cons h t ih =>
      intro acc b hb
      rw [List.foldl_cons] at hb
      obtain ⟨hmem, hmax, hge⟩ := ih (better_node acc h) b hb
      refine ⟨?_, ?_, ?_⟩
      · rcases hmem with ⟨hbt, hbacc⟩ | hstep
        · exact Or.inl ⟨List.mem_cons_of_mem h hbt, hbacc⟩
        · rcases better_node_some_src acc h b hstep with ⟨heq, hhacc⟩ | hacc
          · subst heq
            exact Or.inl ⟨List.mem_cons_self _ t, hhacc⟩
          · exact Or.inr hacc
      · intro x hx hxacc
        rcases List.mem_cons.mp hx with rfl | hxt
        · have hne : better_node acc x ≠ none := by
            rw [Ne, better_node_eq_none]
            rintro ⟨-, hfalse⟩
            rw [hxacc] at hfalse
            cases hfalse
          obtain ⟨c, hc⟩ := Option.ne_none_iff_exists'.mp hne
          exact Nat.le_trans (better_node_ge_self acc x c hxacc hc) (hge c hc)
        · exact hmax x hxt hxacc
      · intro a ha
        subst ha
        obtain ⟨c, hc⟩ := better_node_some_of_some a h
        exact Nat.le_trans (better_node_ge_acc a h c hc) (hge c hc)

/-- The auto-select fold keeps the first node attaining the running
maximum: the result either is the untouched accumulator (which no listed
accepting node strictly beats) or splits the list as `l₁ ++ b :: l₂` where
every accepting node of the prefix `l₁` (and the accumulator) has strictly
smaller available storage than `b`, and no accepting node of the suffix
`l₂` exceeds it. -/
lemma foldl_better_first (l : List TargetNode) :
    ∀ (acc : Option TargetNode) (b : TargetNode),
      l.foldl better_node acc = some b →
      (acc = some b ∧ ∀ x ∈ l, x.can_accept_offload = true →
        x.available_storage_bytes ≤ b.available_storage_bytes) ∨
      (∃ l₁ l₂, l = l₁ ++ b :: l₂ ∧ b.can_accept_offload = true ∧
        (∀ x ∈ l₁, x.can_accept_offload = true →
          x.available_storage_bytes < b.available_storage_bytes) ∧
        (∀ a, acc = some a →
          a.available_storage_bytes < b.available_storage_bytes) ∧
        (∀ x ∈ l₂, x.can_accept_offload = true →
          x.available_storage_bytes ≤ b.available_storage_bytes)) := by
  induction l with
  | nil =>
      intro acc b hb
      simp only [List.foldl_nil] at hb
      exact Or.inl ⟨hb, by simp⟩
  | cons h t ih =>
      intro acc b hb
      rw [List.foldl_cons] at hb
      rcases ih (better_node acc h) b hb with ⟨hstep, hle⟩ |
        ⟨t₁, t₂, heq, hbacc, hlt₁, hltacc, hle₂⟩
      · by_cases hc : h.can_accept_offload = true
        · cases acc with
          | none =>
              rw [better_node_none_accept h hc] at hstep
              have hbh : b = h := (Option.some_inj.mp hstep).symm
              subst hbh
              exact Or.inr ⟨[], t, by simp, hc, by simp, by simp, hle⟩
          | some a =>
              by_cases hlt : a.available_storage_bytes <
                  h.available_storage_bytes
              · rw [better_node_some_lt a h hc hlt] at hstep
                have hbh : b = h := (Option.some_inj.mp hstep).symm
                subst hbh
                refine Or.inr ⟨[], t, by simp, hc, by simp, ?_, hle⟩
                intro a' ha'
                rw [← Option.some_inj.mp ha']
                exact hlt
              · rw [better_node_some_ge a h hc hlt] at hstep
                have hba : b = a := (Option.some_inj.mp hstep).symm
                subst hba
                refine Or.inl ⟨rfl, ?_⟩
                intro x hx hxacc
                rcases List.mem_cons.mp hx with rfl | hxt
                · exact Nat.le_of_not_lt hlt
                · exact hle x hxt hxacc
        · rw [better_node_not_accept acc h hc] at hstep
          refine Or.inl ⟨hstep, ?_⟩
          intro x hx hxacc
          rcases List.mem_cons.mp hx with rfl | hxt
          · exact absurd hxacc hc
          · exact hle x hxt hxacc
      · refine Or.inr ⟨h :: t₁, t₂, by rw [heq]; rfl, hbacc, ?_, ?_, hle₂⟩
        · intro x hx hxacc
          rcases List.mem_cons.mp hx with rfl | hxt
          · have hne : better_node acc x ≠ none := by
              rw [Ne, better_node_eq_none]
              rintro ⟨-, hf⟩
              rw [hxacc] at hf
              cases hf
            obtain ⟨c, hcx⟩ := Option.ne_none_iff_exists'.mp hne
            exact Nat.lt_of_le_of_lt
              (better_node_ge_self acc x c hxacc hcx) (hltacc c hcx)
          · exact hlt₁ x hxt hxacc
        · intro a ha
          subst ha
          obtain ⟨c, hc'⟩ := better_node_some_of_some a h
          exact Nat.lt_of_le_of_lt (better_node_ge_acc a h c hc')
            (hltacc c hc')

/-- The single node of the C2 counterexample: it passes
`can_accept_offload` but its CPU usage (90%) exceeds the default
`max_target_cpu_usage` of 80%, so the spec's auto-select filter excludes
it. -/
def c2_node : TargetNode :=
  create_mock_node "only-node" "10.0.0.1" (8 * 1024 * 1024 * 1024) 90 40

/-- The C2 counterexample manager: default configuration, a single
high-CPU node. -/
def c2_manager : MockOffloadManager := { available_nodes := [c2_node] }

/-- C2 counterexample: with the default configuration and a single node
whose CPU usage is 90% (above `max_target_cpu_usage = 80`), the spec's
auto-select filter is empty — so by the claim `auto_select_target_node`
must fail and select nothing — yet the code succeeds and selects that very
node: the code never applies the storage/CPU/memory bounds. -/
theorem C2_auto_select_counterexample :
    c2_manager.available_nodes.filter
      (spec_auto_admissible c2_manager.config) = [] ∧
    (auto_select_target_node c2_manager).1 = true ∧
    (auto_select_target_node c2_manager).2.current_target = some c2_node := by
  refine ⟨by decide, by decide, by decide⟩

/-- C2 amended: `auto_select_target_node` filters only by
`can_accept_offload` (no storage/CPU/memory bounds, no region preference):
it succeeds exactly when some listed node can accept offloads, in which
case the selected node is an accepting member of the list with maximal
`available_storage_bytes`, and it is the first such in list order — the
list splits as `l₁ ++ b :: l₂` with every accepting node of the prefix
strictly smaller in storage, so storage ties resolve by list position;
on failure the manager is unchanged. -/
theorem C2_auto_select_amended (m : MockOffloadManager) :
    (auto_select_target_node m).1 = (auto_best m).isSome ∧
    (auto_select_target_node m).2 =
      (match auto_best m with
        | some b => { m with current_target := some b }
        | none => m) ∧
    ((auto_best m).isSome = true ↔
      ∃ n ∈ m.available_nodes, n.can_accept_offload = true) ∧
    (∀ b, auto_best m = some b →
      b ∈ m.available_nodes ∧ b.can_accept_offload = true ∧
      ∀ x ∈ m.available_nodes, x.can_accept_offload = true →
        x.available_storage_bytes ≤ b.available_storage_bytes) ∧
    (∀ b, auto_best m = some b →
      ∃ l₁ l₂, m.available_nodes = l₁ ++ b :: l₂ ∧
        ∀ x ∈ l₁, x.can_accept_offload = true →
          x.available_storage_bytes < b.available_storage_bytes) := by
  refine ⟨?_, ?_, ?_, ?_, ?_⟩
  · cases hb : auto_best m <;>
      simp [auto_select_target_node, hb]
  · cases hb : auto_best m <;>
      simp [auto_select_target_node, hb]
  · unfold auto_best
    rw [Option.isSome_iff_ne_none, Ne, foldl_better_eq_none]
    constructor
    · intro hne
      by_contra hno
      push_neg at hno
      refine hne ⟨rfl, fun n hn => ?_⟩
      cases hcn : n.can_accept_offload with
      | false => rfl
      | true => exact absurd hcn (hno n hn)
    · rintro ⟨n, hn, hacc⟩ ⟨-, hall⟩
      rw [hall n hn] at hacc
      cases hacc
  · intro b hb
    obtain ⟨hmem, hmax, -⟩ := foldl_better_spec m.available_nodes none b hb
    rcases hmem with ⟨hbl, hbacc⟩ | hbad
    · exact ⟨hbl, hbacc, hmax⟩
    · cases hbad
  · intro b hb
    rcases foldl_better_first m.available_nodes none b hb with
      ⟨hbad, -⟩ | ⟨l₁, l₂, heq, -, hlt₁, -, -⟩
    · cases hbad
    · exact ⟨l₁, l₂, heq, hlt₁⟩

/-- Witness for C2 (amended) at a concrete input, matching the spec's §8
example: over nodes with 100 GiB, 200 GiB and 50 GiB available (all
admissible), auto-select succeeds and picks node2, whose storage is
maximal. -/
theorem C2_auto_select_amended_witness :
    (auto_select_target_node mkMockOffloadManager).1 = true ∧
    (auto_select_target_node mkMockOffloadManager).2.current_target =
      some (create_mock_node "node2" "192.168.1.11"
        (200 * 1024 * 1024 * 1024)) ∧
    (∀ x ∈ mkMockOffloadManager.available_nodes,
      x.can_accept_offload = true →
        x.available_storage_bytes ≤ 200 * 1024 * 1024 * 1024) ∧
    ∃ l₁ l₂, mkMockOffloadManager.available_nodes =
        l₁ ++ create_mock_node "node2" "192.168.1.11"
          (200 * 1024 * 1024 * 1024) :: l₂ ∧
      ∀ x ∈ l₁, x.can_accept_offload = true →
        x.available_storage_bytes < 200 * 1024 * 1024 * 1024 := by
  have h := C2_auto_select_amended mkMockOffloadManager
  have hb : auto_best mkMockOffloadManager =
      some (create_mock_node "node2" "192.168.1.11"
        (200 * 1024 * 1024 * 1024)) := by decide
  refine ⟨?_, ?_, ?_, ?_⟩
  · rw [h.1, hb]
    rfl
  · rw [h.2.1, hb]
  · exact fun x hx ha => (h.2.2.2.1 _ hb).2.2 x hx ha
  · exact h.2.2.2.2 _ hb

/-- The C3 counterexample manager: configured segment size 2 MiB (not the
default 1 MiB), a target already selected, status Idle. -/
def c3_manager : MockOffloadManager :=
  { config := { segment_size := 2 * 1024 * 1024 }
    current_target := some (create_mock_node "node1" "192.168.1.10"
      (100 * 1024 * 1024 * 1024))
    available_nodes := defaultMockNodes }

/-- C3 counterexample: with `segment_size = 2 MiB` a successful start
records `segments_total = 100`, but `ceil(total_bytes / segment_size) =
ceil(104857600 / 2097152) = 50`: the mock hard-codes 100 segments and never
reads the configured segment size. -/
theorem C3_segments_counterexample :
    (start_offload c3_manager []).1 = true ∧
    (start_offload c3_manager []).2.1.progress.segments_total = 100 ∧
    ((start_offload c3_manager []).2.1.progress.total_bytes +
        c3_manager.config.segment_size - 1) /
      c3_manager.config.segment_size = 50 ∧
    ¬((start_offload c3_manager []).2.1.progress.segments_total =
      ((start_offload c3_manager []).2.1.progress.total_bytes +
          c3_manager.config.segment_size - 1) /
        c3_manager.config.segment_size) := by
  refine ⟨by decide, by decide, by decide, by decide⟩

/-- C3 amended: a successful `start_offload` always records
`total_bytes = 100 MiB` and `segments_total = 100`, ignoring the
configuration; therefore `segments_total = ceil(total_bytes/segment_size)`
— with the 100 uniform segments summing to `total_bytes` — holds exactly
for the default `segment_size` of 1 MiB, not for all configurations. -/
theorem C3_segments_amended (m : MockOffloadManager) (ids : List String)
    (h : (start_offload m ids).1 = true) :
    (start_offload m ids).2.1.progress.total_bytes = 100 * 1024 * 1024 ∧
    (start_offload m ids).2.1.progress.segments_total = 100 ∧
    (m.config.segment_size = 1024 * 1024 →
      (start_offload m ids).2.1.progress.segments_total =
        ((start_offload m ids).2.1.progress.total_bytes +
            m.config.segment_size - 1) / m.config.segment_size ∧
      (start_offload m ids).2.1.progress.segments_total *
          m.config.segment_size =
        (start_offload m ids).2.1.progress.total_bytes) := by
  by_cases h1 : m.current_target = none
  · simp [start_offload, h1] at h
  · by_cases h2 : m.status ≠ OffloadStatus.Idle ∧
        m.status ≠ OffloadStatus.Paused
    · simp [start_offload, h1, h2] at h
    · simp only [start_offload, if_neg h1, if_neg h2, set_status]
      refine ⟨trivial, trivial, fun hseg => ?_⟩
      rw [hseg]
      exact ⟨by norm_num, by norm_num⟩

/-- The C3/C9 base manager: default configuration with node1 selected. -/
def c3_default_manager : MockOffloadManager :=
  { current_target := some (create_mock_node "node1" "192.168.1.10"
      (100 * 1024 * 1024 * 1024))
    available_nodes := defaultMockNodes }

/-- Witness for C3 (amended) at a concrete input: under the default 1 MiB
segment size, a successful start satisfies the ceiling formula. -/
theorem C3_segments_amended_witness :
    (start_offload c3_default_manager []).1 = true ∧
    (start_offload c3_default_manager []).2.1.progress.segments_total =
      ((start_offload c3_default_manager []).2.1.progress.total_bytes +
          c3_default_manager.config.segment_size - 1) /
        c3_default_manager.config.segment_size := by
  have h := C3_segments_amended c3_default_manager [] (by decide)
  exact ⟨by decide, (h.2.2 rfl).1⟩

/-- The C7 counterexample manager: a manager sitting in the terminal
Completed state. -/
def c7_manager : MockOffloadManager :=
  { mkMockOffloadManager with status := OffloadStatus.Completed }

/-- C7 counterexample: `reset` performs the Completed → Idle status
transition, yet fires no status-change callback invocation at all (the C++
body assigns `status_` directly instead of calling `set_status`), so the
transition back to Idle on reset is not reported exactly once as the claim
requires. -/
theorem C7_reset_counterexample :
    c7_manager.status = OffloadStatus.Completed ∧
    (reset c7_manager).1.status = OffloadStatus.Idle ∧
    c7_manager.status ≠ (reset c7_manager).1.status ∧
    (reset c7_manager).2 = [] := by
  refine ⟨rfl, rfl, by decide, rfl⟩

/-- C7 amended: every status mutation that goes through `set_status`
(start, pause, resume, cancel, simulated completion/failure, forced
status) fires the status-change callback exactly once per actual change,
synchronously, carrying the `(previous, next)` pair, in mutation order —
but a write leaving the status unchanged fires nothing, and `reset`
returns to Idle without firing the callback at all. -/
theorem C7_status_events_amended (m : MockOffloadManager)
    (ids : List String) (err : String) (s : OffloadStatus) :
    (force_status m s).2 =
      (if m.status = s then [] else [(m.status, s)]) ∧
    (start_offload m ids).2.2 =
      (if m.current_target.isSome ∧
          (m.status = OffloadStatus.Idle ∨ m.status = OffloadStatus.Paused)
        then [(m.status, OffloadStatus.Preparing),
              (OffloadStatus.Preparing, OffloadStatus.Transferring)]
        else []) ∧
    (pause_offload m).2.2 =
      (if m.status = OffloadStatus.Transferring
        then [(OffloadStatus.Transferring, OffloadStatus.Paused)]
        else []) ∧
    (resume_offload m).2.2 =
      (if m.status = OffloadStatus.Paused
        then [(OffloadStatus.Paused, OffloadStatus.Transferring)]
        else []) ∧
    (cancel_offload m).2.2 =
      (if is_active m = true then [(m.status, OffloadStatus.Cancelled)]
        else []) ∧
    (simulate_complete m true).2 =
      ((if m.status = OffloadStatus.Completing then []
        else [(m.status, OffloadStatus.Completing)]) ++
        [(OffloadStatus.Completing, OffloadStatus.Completed)]) ∧
    (simulate_complete m false).2 =
      (if m.status = OffloadStatus.Failed then []
        else [(m.status, OffloadStatus.Failed)]) ∧
    (simulate_error m err).2 =
      (if m.status = OffloadStatus.Failed then []
        else [(m.status, OffloadStatus.Failed)]) ∧
    (reset m).2 = [] := by
  cases ht : m.current_target <;> cases hs : m.status <;>
    simp [force_status, start_offload, pause_offload, resume_offload,
      cancel_offload, simulate_complete, simulate_error, reset, is_active,
      set_status, ht, hs]

/-- The C8 counterexample run: select node1, start (100 MiB payload), then
simulate one progress update of `total_bytes + 1` bytes. -/
def c8_progress : OffloadProgress :=
  (simulate_progress
    (start_offload c3_default_manager []).2.1 (100 * 1024 * 1024 + 1)).progress

/-- C8 counterexample: after `simulate_progress` with one byte more than
the payload, `pending_bytes = total_bytes - transferred_bytes` wraps to
`2^64 - 1`, so `transferred_bytes + pending_bytes ≠ total_bytes`: the
byte-accounting invariant is not preserved by every public operation. -/
theorem C8_invariant_counterexample :
    c8_progress.total_bytes = 104857600 ∧
    c8_progress.transferred_bytes = 104857601 ∧
    c8_progress.pending_bytes = 18446744073709551615 ∧
    c8_progress.transferred_bytes + c8_progress.pending_bytes ≠
      c8_progress.total_bytes := by
  refine ⟨by decide, by decide, by decide, by decide⟩

/-- The progress-accounting invariant that the code actually maintains:
both the byte identity and the segment identity hold modulo 2^64 (the
C++ `size_t` modulus), and no segment is ever marked failed. -/
def ProgressInv (p : OffloadProgress) : Prop :=
  (p.transferred_bytes + p.pending_bytes) % U64 = p.total_bytes % U64 ∧
  (p.segments_completed + p.segments_failed + p.segments_pending) % U64 =
    p.segments_total % U64 ∧
  p.segments_failed = 0

/-- Wrap-around accounting: adding a value reduced mod `2^64` to the
wrapped difference against it recovers the original total mod `2^64`. -/
lemma wrap_sum_modU (x y : Nat) :
    (x % U64 + (y + U64 - x % U64) % U64) % U64 = y % U64 := by
  unfold U64
  omega

/-- C8 amended: every modeled public operation — construction,
`start_offload`, `simulate_progress`, `simulate_complete`,
`simulate_error`, pause, resume, cancel, `select_target_node` and `reset`
— preserves the progress identities in their modulo-2^64 form
(`(transferred + pending) % 2^64 = total % 2^64` and
`(completed + failed + pending) % 2^64 = segments_total % 2^64`, with
`segments_failed = 0` throughout); the exact (non-wrapping) identities of
the claim hold only while the counters stay in range. -/
theorem C8_progress_invariants_amended (m : MockOffloadManager)
    (h : ProgressInv m.progress) (ids : List String) (bytes : Nat)
    (success : Bool) (err : String) (node_id : String) :
    ProgressInv mkMockOffloadManager.progress ∧
    ProgressInv (start_offload m ids).2.1.progress ∧
    ProgressInv (simulate_progress m bytes).progress ∧
    ProgressInv (simulate_complete m success).1.progress ∧
    ProgressInv (simulate_error m err).1.progress ∧
    ProgressInv (pause_offload m).2.1.progress ∧
    ProgressInv (resume_offload m).2.1.progress ∧
    ProgressInv (cancel_offload m).2.1.progress ∧
    ProgressInv (select_target_node m node_id).2.progress ∧
    ProgressInv (reset m).1.progress := by
  obtain ⟨h1, h2, h3⟩ := h
  refine ⟨⟨by decide, by decide, by decide⟩, ?_, ?_, ?_, ?_, ?_, ?_, ?_, ?_,
    ⟨rfl, rfl, rfl⟩⟩
  · unfold start_offload
    split
    · exact ⟨h1, h2, h3⟩
    · split
      · exact ⟨h1, h2, h3⟩
      · simp only [set_status]
        exact ⟨by decide, by decide, rfl⟩
  · refine ⟨?_, ?_, h3⟩
    · simpa [simulate_progress] using
        wrap_sum_modU (m.progress.transferred_bytes + bytes)
          m.progress.total_bytes
    · have := wrap_sum_modU (m.progress.segments_completed + 1)
        m.progress.segments_total
      simpa [simulate_progress, h3] using this
  · cases success with
    | true =>
        refine ⟨?_, ?_, ?_⟩ <;>
          simp [simulate_complete, set_status, notify_complete, h3]
    | false =>
        simpa [simulate_complete, set_status, notify_complete]
          using And.intro h1 (And.intro h2 h3)
  · simpa [simulate_error, set_status, notify_complete]
      using And.intro h1 (And.intro h2 h3)
  · unfold pause_offload
    split <;> simp only [set_status] <;> exact ⟨h1, h2, h3⟩
  · unfold resume_offload
    split <;> simp only [set_status] <;> exact ⟨h1, h2, h3⟩
  · unfold cancel_offload
    split <;> simp only [set_status, notify_complete] <;>
      exact ⟨h1, h2, h3⟩
  · cases hf : m.available_nodes.find? (fun x => x.node_id == node_id) with
    | none =>
        rw [select_target_node_of_find_none m node_id hf]
        exact ⟨h1, h2, h3⟩
    | some n =>
        rw [select_target_node_of_find_some m node_id n hf]
        by_cases hacc : n.can_accept_offload = true
        · rw [if_pos hacc]
          exact ⟨h1, h2, h3⟩
        · rw [if_neg hacc]
          exact ⟨h1, h2, h3⟩

/-- Witness for C8 (amended) at a concrete input: the invariant holds for
the fresh manager and is preserved through one simulated progress update. -/
theorem C8_progress_invariants_amended_witness :
    ProgressInv (simulate_progress mkMockOffloadManager 42).progress := by
  exact (C8_progress_invariants_amended mkMockOffloadManager
    ⟨by decide, by decide, by decide⟩ [] 42 true "err" "node1").2.2.1

set_option linter.unusedVariables false in
/-- C9: target selection is independent of the operation lifecycle: while
an operation is active, `select_target_node` on a found admissible node
still succeeds and replaces the current target (leaving the status alone),
`clear_target_selection` still clears it, and the target node recorded in
the last result by a completion is whichever target is selected at that
moment (the default-constructed node if none). -/
theorem C9_target_rebinding (m : MockOffloadManager) (node_id : String)
    (n : TargetNode) (hactive : is_active m = true)
    (hfind : m.available_nodes.find? (fun x => x.node_id == node_id) =
      some n)
    (hacc : n.can_accept_offload = true) :
    (select_target_node m node_id).1 = true ∧
    (select_target_node m node_id).2.current_target = some n ∧
    (select_target_node m node_id).2.status = m.status ∧
    (clear_target_selection m).current_target = none ∧
    ∀ success : Bool,
      ((simulate_complete m success).1.last_result).map
          (fun r => r.target_node) =
        some (m.current_target.getD defaultTargetNode) := by
  rw [select_target_node_of_find_some m node_id n hfind, if_pos hacc]
  refine ⟨rfl, rfl, rfl, rfl, fun success => ?_⟩
  cases success <;>
    simp [simulate_complete, set_status, notify_complete]

/-- The C9 base run: select node1, then start an offload (status becomes
Transferring, so an operation is active). -/
def c9_manager : MockOffloadManager :=
  (start_offload (select_target_node mkMockOffloadManager "node1").2 []).2.1

/-- The node the C9 witness rebinds to mid-operation. -/
def node2_mock : TargetNode :=
  create_mock_node "node2" "192.168.1.11" (200 * 1024 * 1024 * 1024)

/-- Witness for C9 at a concrete input: start against node1, rebind the
target to node2 while Transferring, then complete — the recorded result
carries node2, not the node the operation started with. -/
theorem C9_target_rebinding_witness :
    (select_target_node c9_manager "node2").1 = true ∧
    (select_target_node c9_manager "node2").2.current_target =
      some node2_mock ∧
    ((simulate_complete (select_target_node c9_manager "node2").2
        true).1.last_result).map (fun r => r.target_node) =
      some node2_mock := by
  have h1 := C9_target_rebinding c9_manager "node2" node2_mock
    (by decide) (by decide) (by decide)
  have h2 := C9_target_rebinding (select_target_node c9_manager "node2").2
    "node2" node2_mock (by decide) (by decide) (by decide)
  refine ⟨h1.1, h1.2.1, ?_⟩
  have h3 := h2.2.2.2.2 true
  rw [h1.2.1] at h3
  simpa using h3

/-- The C10 run: select node1, start the 100 MiB / 100-segment offload,
then apply 101 progress updates of 1 MiB each — one more than there are
segments and one more MiB than the payload holds. -/
def c10_manager : MockOffloadManager :=
  Nat.iterate (fun s => simulate_progress s (1024 * 1024)) 101
    (start_offload (select_target_node mkMockOffloadManager "node1").2
      []).2.1

set_option maxRecDepth 100000 in
/-- C10: the progress counters use unsigned modulo-2^64 arithmetic and
never clamp: after 101 one-MiB updates against a 100 MiB payload,
`transferred_bytes` exceeds `total_bytes`, `pending_bytes` wraps past zero
to `2^64 - 2^20`, `segments_pending` wraps to `2^64 - 1`, and
`progress_percent` exceeds 100 (it is exactly 101). -/
theorem C10_modular_wraparound :
    c10_manager.progress.total_bytes = 104857600 ∧
    c10_manager.progress.transferred_bytes = 105906176 ∧
    c10_manager.progress.total_bytes <
      c10_manager.progress.transferred_bytes ∧
    c10_manager.progress.pending_bytes = U64 - 1048576 ∧
    c10_manager.progress.segments_total = 100 ∧
    c10_manager.progress.segments_completed = 101 ∧
    c10_manager.progress.segments_pending = U64 - 1 ∧
    100 < c10_manager.progress.progress_percent ∧
    c10_manager.progress.progress_percent = 101 := by
  have ht : c10_manager.progress.transferred_bytes = 105906176 := by decide
  have htot : c10_manager.progress.total_bytes = 104857600 := by decide
  have hpercent : c10_manager.progress.progress_percent = 101 := by
    simp only [OffloadProgress.progress_percent, ht, htot]
    norm_num
  refine ⟨htot, ht, ?_, by decide, by decide, by decide, by decide, ?_,
    hpercent⟩
  · rw [ht, htot]
    norm_num
  · rw [hpercent]
    norm_num

end Offloading
